import Mathlib

/-!
Verification of the Sillyengine ECS / scene / transform core.

Shallow embedding of:
  * `src/src/Engine/Math/Transform.cpp` (dirty-flag guarded matrix caches),
  * `src/include/Engine/ECS/Component.hpp` (Entity component map, EntityManager),
  * `src/src/Engine/Scene/Scene.cpp` and `SceneManager.cpp`.

C++ `std::unordered_map` instances are embedded as association lists with
first-match lookup; keys stay unique because insertion erases the key first.
Heap objects reached through raw pointers (Transforms linked by `parent`,
Entities owned by the EntityManager) are embedded as stores indexed by `Nat`
addresses.
-/

set_option autoImplicit false

namespace Sillyengine

/-! ## Association-list maps (embedding of std::unordered_map) -/

def mapLookup {K V : Type} [DecidableEq K] : List (K × V) → K → Option V
  | [], _ => none
  | p :: l, k => if p.1 = k then some p.2 else mapLookup l k

def mapErase {K V : Type} [DecidableEq K] (l : List (K × V)) (k : K) : List (K × V) :=
  l.filter fun p => decide (p.1 ≠ k)

def mapInsert {K V : Type} [DecidableEq K] (l : List (K × V)) (k : K) (v : V) : List (K × V) :=
  (k, v) :: mapErase l k

theorem mapErase_cons {K V : Type} [DecidableEq K] (p : K × V) (l : List (K × V)) (k : K) :
    mapErase (p :: l) k = if p.1 = k then mapErase l k else p :: mapErase l k := by
  by_cases hp : p.1 = k <;> simp [mapErase, List.filter_cons, hp]

theorem mapLookup_mapErase_self {K V : Type} [DecidableEq K] (l : List (K × V)) (k : K) :
    mapLookup (mapErase l k) k = none := by
  induction l with
  | nil => rfl
  | cons p l ih =>
      rw [mapErase_cons]
      by_cases h : p.1 = k
      · simpa [h] using ih
      · simpa [mapLookup, h] using ih

theorem mapLookup_mapErase_ne {K V : Type} [DecidableEq K] (l : List (K × V)) (k k' : K)
    (h : k' ≠ k) : mapLookup (mapErase l k) k' = mapLookup l k' := by
  induction l with
  | nil => rfl
  | cons p l ih =>
      rw [mapErase_cons]
      by_cases hp : p.1 = k
      · have hpk : ¬ p.1 = k' := fun hk => h (by rw [← hk, hp])
        have hk : k ≠ k' := fun hk => h hk.symm
        simpa [mapLookup, hp, hpk, hk] using ih
      · by_cases hpk : p.1 = k'
        · simp [mapLookup, hp, hpk, h]
        · simpa [mapLookup, hp, hpk] using ih

theorem mapLookup_mapInsert_self {K V : Type} [DecidableEq K] (l : List (K × V)) (k : K) (v : V) :
    mapLookup (mapInsert l k v) k = some v := by
  simp [mapInsert, mapLookup]

theorem mapLookup_mapInsert_ne {K V : Type} [DecidableEq K] (l : List (K × V)) (k k' : K) (v : V)
    (h : k' ≠ k) : mapLookup (mapInsert l k v) k' = mapLookup l k' := by
  have : k ≠ k' := fun hk => h hk.symm
  simp [mapInsert, mapLookup, this]
  exact mapLookup_mapErase_ne l k k' h

/-! ## Vectors (Engine/Math/Vector.hpp, the parts Transform.cpp uses)

Scalars are embedded as `ℚ`.
-/

structure Vec3 where
  x : ℚ
  y : ℚ
  z : ℚ
deriving DecidableEq

/-- `Vector3 operator+=` (used by `Transform::translate` and `Transform::rotate`). -/
def Vec3.add (a b : Vec3) : Vec3 := ⟨a.x + b.x, a.y + b.y, a.z + b.z⟩

/-! ## Transform (src/src/Engine/Math/Transform.cpp)

The 4x4 float matrix algebra of `Matrix.cpp` is kept as a parameter `M` with
its operations bundled in `MatrixOps`; the caching logic of `Transform.cpp`
is translated literally on top of it.  Transforms live in a store indexed by
their address, because `parent` is a raw `Transform*`.
-/

structure MatrixOps (M : Type) where
  mul : M → M → M
  translation : Vec3 → M
  rotation : ℚ → ℚ → ℚ → M
  scaling : Vec3 → M

/-- Degrees-to-radians factor `0.01745329252f` from `Transform::getLocalMatrix`. -/
def degToRad : ℚ := 0.01745329252

structure Transform (M : Type) where
  position : Vec3
  rotation : Vec3
  scale : Vec3
  parent : Option Nat
  dirtyLocalMatrix : Bool
  dirtyWorldMatrix : Bool
  localMatrix : M
  worldMatrix : M

/-- `Transform::setPosition(const Vector3&)`. -/
def Transform.setPosition {M : Type} (t : Transform M) (p : Vec3) : Transform M :=
  { t with position := p, dirtyLocalMatrix := true, dirtyWorldMatrix := true }

/-- `Transform::setRotation(const Vector3&)`. -/
def Transform.setRotation {M : Type} (t : Transform M) (r : Vec3) : Transform M :=
  { t with rotation := r, dirtyLocalMatrix := true, dirtyWorldMatrix := true }

/-- `Transform::translate(const Vector3&)`: `position += translation`. -/
def Transform.translate {M : Type} (t : Transform M) (v : Vec3) : Transform M :=
  { t with position := t.position.add v, dirtyLocalMatrix := true, dirtyWorldMatrix := true }

/-- `Transform::rotate(const Vector3&)`: `rotation += rotation`. -/
def Transform.rotate {M : Type} (t : Transform M) (v : Vec3) : Transform M :=
  { t with rotation := t.rotation.add v, dirtyLocalMatrix := true, dirtyWorldMatrix := true }

/-- `Transform::scale(const Vector3&)`: componentwise product with `scaling`.
(Named `scaleBy` because the field already carries the name `scale`.) -/
def Transform.scaleBy {M : Type} (t : Transform M) (s : Vec3) : Transform M :=
  { t with scale := ⟨t.scale.x * s.x, t.scale.y * s.y, t.scale.z * s.z⟩,
           dirtyLocalMatrix := true, dirtyWorldMatrix := true }

/-- `Transform::setParent(Transform*)`: no-op when the parent is unchanged,
otherwise re-parents and sets only `dirtyWorldMatrix`. -/
def Transform.setParent {M : Type} (t : Transform M) (p : Option Nat) : Transform M :=
  if t.parent = p then t
  else { t with parent := p, dirtyWorldMatrix := true }

/-- `Transform::getLocalMatrix`: recompute `translation * rotation * scale`
when `dirtyLocalMatrix`, memoize, clear the flag; otherwise return the cache.
Returns the matrix together with the updated (mutable-field) state. -/
def Transform.getLocalMatrix {M : Type} (ops : MatrixOps M) (t : Transform M) :
    M × Transform M :=
  if t.dirtyLocalMatrix then
    let translationMatrix := ops.translation t.position
    let rotationMatrix :=
      ops.rotation (t.rotation.x * degToRad) (t.rotation.y * degToRad) (t.rotation.z * degToRad)
    let scaleMatrix := ops.scaling t.scale
    let lm := ops.mul (ops.mul translationMatrix rotationMatrix) scaleMatrix
    (lm, { t with localMatrix := lm, dirtyLocalMatrix := false })
  else
    (t.localMatrix, t)

/-- Store of Transforms indexed by address (a `Transform*` is a `Nat`). -/
def TStore (M : Type) := Nat → Option (Transform M)

def TStore.set {M : Type} (s : TStore M) (i : Nat) (t : Transform M) : TStore M :=
  fun j => if j = i then some t else s j

/-- Apply a mutator method to the Transform at address `i` (a call through a
valid pointer; absent addresses are untouched). -/
def TStore.at {M : Type} (s : TStore M) (i : Nat) (f : Transform M → Transform M) : TStore M :=
  fun j => if j = i then (s j).map f else s j

/-- `Transform::getWorldMatrix`, fuel-bounded because the `parent` chain is
chased recursively through the store (a parent cycle does not terminate in the
C++ either).  When `dirtyWorldMatrix`, recompute `parent ? parent->getWorldMatrix()
* getLocalMatrix() : getLocalMatrix()`, memoize, clear the flag; otherwise
return the cache.  Returns the matrix and the updated store. -/
def getWorldMatrix {M : Type} (ops : MatrixOps M) :
    Nat → TStore M → Nat → Option (M × TStore M)
  | 0, _, _ => none
  | fuel + 1, s, i =>
    match s i with
    | none => none
    | some t =>
      if t.dirtyWorldMatrix then
        match t.parent with
        | some p =>
          match getWorldMatrix ops fuel s p with
          | none => none
          | some (pm, s1) =>
            match s1 i with
            | none => none
            | some t1 =>
              let r := t1.getLocalMatrix ops
              let wm := ops.mul pm r.1
              some (wm, s1.set i { r.2 with worldMatrix := wm, dirtyWorldMatrix := false })
        | none =>
          let r := t.getLocalMatrix ops
          some (r.1, s.set i { r.2 with worldMatrix := r.1, dirtyWorldMatrix := false })
      else
        some (t.worldMatrix, s)

/-- Dirty flags `(dirtyLocalMatrix, dirtyWorldMatrix)` of the Transform at `i`. -/
def flagsAt {M : Type} (s : TStore M) (i : Nat) : Option (Bool × Bool) :=
  (s i).map fun t => (t.dirtyLocalMatrix, t.dirtyWorldMatrix)

theorem TStore.at_ne {M : Type} (s : TStore M) (i j : Nat) (f : Transform M → Transform M)
    (h : j ≠ i) : s.at i f j = s j := by
  simp [TStore.at, h]

theorem TStore.at_self {M : Type} (s : TStore M) (i : Nat) (f : Transform M → Transform M) :
    s.at i f i = (s i).map f := by
  simp [TStore.at]

/-- A successful `getWorldMatrix` call leaves the queried Transform cached:
its `dirtyWorldMatrix` is cleared and its `worldMatrix` holds the returned value. -/
theorem getWorldMatrix_result {M : Type} (ops : MatrixOps M) (fuel : Nat) (s s' : TStore M)
    (i : Nat) (m : M) (h : getWorldMatrix ops fuel s i = some (m, s')) :
    ∃ t', s' i = some t' ∧ t'.dirtyWorldMatrix = false ∧ t'.worldMatrix = m := by
  cases fuel with
  | zero => simp [getWorldMatrix] at h
  | succ n =>
      simp only [getWorldMatrix] at h
      split at h
      · exact absurd h (by simp)
      · rename_i t ht
        split at h
        · rename_i hd
          split at h
          · rename_i p hp
            split at h
            · exact absurd h (by simp)
            · rename_i pm s1 hrec
              split at h
              · exact absurd h (by simp)
              · rename_i t1 ht1
                simp only [Option.some.injEq, Prod.mk.injEq] at h
                obtain ⟨hm, hs⟩ := h
                refine ⟨{ (Transform.getLocalMatrix ops t1).2 with
                          worldMatrix := ops.mul pm (Transform.getLocalMatrix ops t1).1,
                          dirtyWorldMatrix := false }, ?_, rfl, hm⟩
                rw [← hs]
                simp [TStore.set]
          · rename_i hp
            simp only [Option.some.injEq, Prod.mk.injEq] at h
            obtain ⟨hm, hs⟩ := h
            refine ⟨{ (Transform.getLocalMatrix ops t).2 with
                      worldMatrix := (Transform.getLocalMatrix ops t).1,
                      dirtyWorldMatrix := false }, ?_, rfl, hm⟩
            rw [← hs]
            simp [TStore.set]
        · rename_i hd
          simp only [Option.some.injEq, Prod.mk.injEq] at h
          obtain ⟨hm, hs⟩ := h
          refine ⟨t, ?_, by simp at hd; exact hd, hm⟩
          rw [← hs]; exact ht

/-- A Transform whose world cache is clean answers from the cache and leaves
the store untouched. -/
theorem getWorldMatrix_clean {M : Type} (ops : MatrixOps M) (fuel : Nat) (s : TStore M)
    (i : Nat) (t : Transform M) (ht : s i = some t) (hc : t.dirtyWorldMatrix = false) :
    getWorldMatrix ops (fuel + 1) s i = some (t.worldMatrix, s) := by
  simp [getWorldMatrix, ht, hc]

/-! ## Claim C1 -/

/-- Example Transform used to exhibit the `setParent` behaviour. -/
def exT : Transform Unit :=
  ⟨⟨0, 0, 0⟩, ⟨0, 0, 0⟩, ⟨1, 1, 1⟩, none, false, false, (), ()⟩

def exStore : TStore Unit := fun j => if j = 0 then some exT else none

/-- C1 counterexample: the claim says `setParent` (to a different parent) sets
both dirty flags true, but `Transform::setParent` sets only `dirtyWorldMatrix`:
on a Transform with both flags clear, re-parenting leaves
`dirtyLocalMatrix = false`. -/
theorem setParent_dirtyLocal_counterexample :
    flagsAt (TStore.at exStore 0 (Transform.setParent · (some 1))) 0 ≠ some (true, true) ∧
    flagsAt (TStore.at exStore 0 (Transform.setParent · (some 1))) 0 = some (false, true) := by
  constructor
  · intro h
    simp [flagsAt, TStore.at, exStore, exT, Transform.setParent] at h
  · rfl

/-- C1 (amended): `setPosition`, `setRotation`, `translate`, `rotate` and
`scale` set both `dirtyLocalMatrix` and `dirtyWorldMatrix` true on the mutated
Transform; `setParent` to a different parent sets `dirtyWorldMatrix` true and
leaves `dirtyLocalMatrix` unchanged; every mutator leaves all other Transforms
in the store (in particular their dirty flags) unchanged. -/
theorem mutators_dirty_flags_localized {M : Type} (s : TStore M) (i : Nat) (t : Transform M)
    (v : Vec3) (p : Option Nat) (ht : s i = some t) (hp : t.parent ≠ p) :
    flagsAt (s.at i (Transform.setPosition · v)) i = some (true, true) ∧
    flagsAt (s.at i (Transform.setRotation · v)) i = some (true, true) ∧
    flagsAt (s.at i (Transform.translate · v)) i = some (true, true) ∧
    flagsAt (s.at i (Transform.rotate · v)) i = some (true, true) ∧
    flagsAt (s.at i (Transform.scaleBy · v)) i = some (true, true) ∧
    flagsAt (s.at i (Transform.setParent · p)) i = some (t.dirtyLocalMatrix, true) ∧
    (∀ f : Transform M → Transform M, ∀ j, j ≠ i → s.at i f j = s j) := by
  refine ⟨?_, ?_, ?_, ?_, ?_, ?_, fun f j hj => TStore.at_ne s i j f hj⟩ <;>
    simp [flagsAt, TStore.at, ht, Transform.setPosition, Transform.setRotation,
      Transform.translate, Transform.rotate, Transform.scaleBy, Transform.setParent, hp]

/-- C1 witness: the amended statement at a concrete one-Transform store. -/
theorem mutators_dirty_flags_localized_witness :
    flagsAt (TStore.at exStore 0 (Transform.setPosition · ⟨1, 2, 3⟩)) 0 = some (true, true) ∧
    flagsAt (TStore.at exStore 0 (Transform.setRotation · ⟨1, 2, 3⟩)) 0 = some (true, true) ∧
    flagsAt (TStore.at exStore 0 (Transform.translate · ⟨1, 2, 3⟩)) 0 = some (true, true) ∧
    flagsAt (TStore.at exStore 0 (Transform.rotate · ⟨1, 2, 3⟩)) 0 = some (true, true) ∧
    flagsAt (TStore.at exStore 0 (Transform.scaleBy · ⟨1, 2, 3⟩)) 0 = some (true, true) ∧
    flagsAt (TStore.at exStore 0 (Transform.setParent · (some 7))) 0 = some (false, true) ∧
    (∀ f : Transform Unit → Transform Unit, ∀ j, j ≠ 0 → TStore.at exStore 0 f j = exStore j) :=
  mutators_dirty_flags_localized exStore 0 exT ⟨1, 2, 3⟩ (some 7) rfl (by simp [exT])

/-! ## Claim C5 -/

/-- C5: `getWorldMatrix` recomputes at most once between mutations: if a call
returns matrix `m` and post-state `s'`, a second call on `s'` with no
intervening mutation returns the identical cached matrix `m` and leaves the
store exactly at `s'` (no recomputation). -/
theorem getWorldMatrix_memoized {M : Type} (ops : MatrixOps M) (fuel : Nat) (s s' : TStore M)
    (i : Nat) (m : M) (h : getWorldMatrix ops fuel s i = some (m, s')) :
    getWorldMatrix ops fuel s' i = some (m, s') := by
  obtain ⟨t', ht', hd, hw⟩ := getWorldMatrix_result ops fuel s s' i m h
  cases fuel with
  | zero => simp [getWorldMatrix] at h
  | succ n => rw [getWorldMatrix_clean ops n s' i t' ht' hd, hw]

/-- Matrix operations instantiated at the trivial algebra, for witnesses. -/
def opsU : MatrixOps Unit := ⟨fun _ _ => (), fun _ => (), fun _ _ _ => (), fun _ => ()⟩

/-- A fully dirty root Transform (both caches stale, no parent). -/
def dirtyT : Transform Unit :=
  ⟨⟨0, 0, 0⟩, ⟨0, 0, 0⟩, ⟨1, 1, 1⟩, none, true, true, (), ()⟩

/-- The same Transform after both caches are filled. -/
def cleanT : Transform Unit :=
  ⟨⟨0, 0, 0⟩, ⟨0, 0, 0⟩, ⟨1, 1, 1⟩, none, false, false, (), ()⟩

def dirtyStore : TStore Unit := fun j => if j = 0 then some dirtyT else none

/-- C5 witness: compute the world matrix of a dirty root once; the second call
returns the same matrix and the same store. -/
theorem getWorldMatrix_memoized_witness :
    getWorldMatrix opsU 1 (TStore.set dirtyStore 0 cleanT) 0 =
      some ((), TStore.set dirtyStore 0 cleanT) :=
  getWorldMatrix_memoized opsU 1 dirtyStore (TStore.set dirtyStore 0 cleanT) 0 () rfl

/-! ## Claim C2 -/

/-- C2: mutating a parent Transform `p` (here via `setPosition`) does not touch
a child `c` whose `parent` pointer is `p`: the child's record — dirty flags
included — is unchanged; if the child's world cache was clean, `getWorldMatrix`
on the child returns the stale cached matrix, the same value it returned
before the parent moved, until the child itself is mutated (which re-dirties
it). -/
theorem parent_mutation_stale_child_world {M : Type} (ops : MatrixOps M) (s : TStore M)
    (p c : Nat) (tc : Transform M) (v : Vec3) (hc : s c = some tc)
    (hpar : tc.parent = some p) (hclean : tc.dirtyWorldMatrix = false) (hne : c ≠ p) :
    TStore.at s p (Transform.setPosition · v) c = s c ∧
    (∀ fuel, getWorldMatrix ops (fuel + 1) (TStore.at s p (Transform.setPosition · v)) c =
        some (tc.worldMatrix, TStore.at s p (Transform.setPosition · v))) ∧
    (∀ fuel, getWorldMatrix ops (fuel + 1) s c = some (tc.worldMatrix, s)) ∧
    (∀ vc, flagsAt
        (TStore.at (TStore.at s p (Transform.setPosition · v)) c (Transform.setPosition · vc))
        c = some (true, true)) := by
  have hframe : TStore.at s p (Transform.setPosition · v) c = s c :=
    TStore.at_ne s p c _ hne
  refine ⟨hframe, ?_, ?_, ?_⟩
  · intro fuel
    exact getWorldMatrix_clean ops fuel _ c tc (hframe.trans hc) hclean
  · intro fuel
    exact getWorldMatrix_clean ops fuel s c tc hc hclean
  · intro vc
    unfold flagsAt
    rw [TStore.at_self, hframe, hc]
    rfl

/-- Child Transform at address 0 whose parent pointer is address 1, with a
clean world cache. -/
def childT : Transform Unit :=
  ⟨⟨0, 0, 0⟩, ⟨0, 0, 0⟩, ⟨1, 1, 1⟩, some 1, false, false, (), ()⟩

/-- Two-node store: child at 0 (clean), parent at 1 (dirty root). -/
def familyStore : TStore Unit :=
  fun j => if j = 0 then some childT else if j = 1 then some dirtyT else none

/-- C2 witness: the staleness scenario at a concrete parent/child pair. -/
theorem parent_mutation_stale_child_world_witness :
    TStore.at familyStore 1 (Transform.setPosition · ⟨5, 0, 0⟩) 0 = familyStore 0 ∧
    (∀ fuel, getWorldMatrix opsU (fuel + 1)
        (TStore.at familyStore 1 (Transform.setPosition · ⟨5, 0, 0⟩)) 0 =
        some ((), TStore.at familyStore 1 (Transform.setPosition · ⟨5, 0, 0⟩))) ∧
    (∀ fuel, getWorldMatrix opsU (fuel + 1) familyStore 0 = some ((), familyStore)) ∧
    (∀ vc, flagsAt
        (TStore.at (TStore.at familyStore 1 (Transform.setPosition · ⟨5, 0, 0⟩)) 0
          (Transform.setPosition · vc)) 0 = some (true, true)) :=
  parent_mutation_stale_child_world opsU familyStore 1 0 childT ⟨5, 0, 0⟩ rfl rfl rfl
    (by decide)

/-! ## Entity component map (src/include/Engine/ECS/Component.hpp)

`std::type_index` keys are embedded as `Nat`; the component payload is a
parameter `C`.  Each operation returns its result together with the resulting
component map (a throw leaves the map unchanged).
-/

/-- `Entity::addComponent<T>`: throws `"Component already exists"` when a
component of that type is attached, otherwise stores the component and
returns it. -/
def addComponent {C : Type} (components : List (Nat × C)) (ty : Nat) (c : C) :
    Except String C × List (Nat × C) :=
  if (mapLookup components ty).isSome then
    (Except.error "Component already exists", components)
  else
    (Except.ok c, mapInsert components ty c)

/-- `Entity::getComponent<T>`: throws `"Component does not exist"` when absent. -/
def getComponent {C : Type} (components : List (Nat × C)) (ty : Nat) : Except String C :=
  match mapLookup components ty with
  | none => Except.error "Component does not exist"
  | some c => Except.ok c

/-- `Entity::hasComponent<T>`. -/
def hasComponent {C : Type} (components : List (Nat × C)) (ty : Nat) : Bool :=
  (mapLookup components ty).isSome

/-- `Entity::removeComponent<T>`: `false` when absent, otherwise erases the
component and returns `true`. -/
def removeComponent {C : Type} (components : List (Nat × C)) (ty : Nat) :
    Bool × List (Nat × C) :=
  match mapLookup components ty with
  | none => (false, components)
  | some _ => (true, mapErase components ty)

/-! ## Claim C4 -/

/-- C4: `addComponent` on an already-attached type throws and leaves the map
unchanged; `getComponent` throws whenever the type is absent — on a fresh
(empty) map and after `removeComponent`; `removeComponent` returns `false`
when absent and `true` after erasing when present. -/
theorem component_map_error_semantics {C : Type} (cs : List (Nat × C)) (ty : Nat) (c : C) :
    (∀ c0, mapLookup cs ty = some c0 →
        addComponent cs ty c = (Except.error "Component already exists", cs)) ∧
    (mapLookup cs ty = none →
        getComponent cs ty = (Except.error "Component does not exist" : Except String C)) ∧
    getComponent ([] : List (Nat × C)) ty = Except.error "Component does not exist" ∧
    (mapLookup cs ty = none → removeComponent cs ty = (false, cs)) ∧
    (∀ c0, mapLookup cs ty = some c0 →
        removeComponent cs ty = (true, mapErase cs ty) ∧
        mapLookup (mapErase cs ty) ty = none ∧
        getComponent (mapErase cs ty) ty =
          (Except.error "Component does not exist" : Except String C)) := by
  refine ⟨fun c0 h => ?_, fun h => ?_, rfl, fun h => ?_, fun c0 h => ⟨?_, ?_, ?_⟩⟩
  · simp [addComponent, h]
  · simp [getComponent, h]
  · simp [removeComponent, h]
  · simp [removeComponent, h]
  · exact mapLookup_mapErase_self cs ty
  · simp [getComponent, mapLookup_mapErase_self]

/-- C4 witness: the error semantics at a concrete one-component map. -/
theorem component_map_error_semantics_witness :
    addComponent [(3, 42)] 3 7 = (Except.error "Component already exists", [(3, 42)]) ∧
    getComponent ([] : List (Nat × Nat)) 3 = Except.error "Component does not exist" ∧
    removeComponent ([] : List (Nat × Nat)) 3 = (false, []) ∧
    removeComponent [(3, 42)] 3 = (true, mapErase [(3, 42)] 3) ∧
    getComponent (mapErase [(3, 42)] 3) 3 = Except.error "Component does not exist" := by
  have h1 := component_map_error_semantics [(3, 42)] 3 7
  have h2 := component_map_error_semantics ([] : List (Nat × Nat)) 3 7
  exact ⟨h1.1 42 rfl, h2.2.2.1, h2.2.2.2.1 rfl, (h1.2.2.2.2 42 rfl).1, (h1.2.2.2.2 42 rfl).2.2⟩

/-! ## EntityManager (declared in src/include/Engine/ECS/Component.hpp)

The entity store: entities are heap objects (`Entity*` is a `Nat` address)
carrying their `id` and `name` (`Entity::getId`, `Entity::getName`,
`Entity::setName` from the header); the manager owns the `id → Entity*` map,
the free-id queue and the `nextId` counter declared in the header.
-/

structure EntityObj where
  id : Nat
  name : String
deriving DecidableEq

structure EntityManager where
  heap : Nat → Option EntityObj
  entities : List (Nat × Nat)
  freeIds : List Nat
  nextId : Nat
  nextRef : Nat

/-- Modelled from the spec: `EntityManager::createEntity`'s body
(EntityManager.cpp) is not among the sources — only its declaration is.
Spec §4.1: "pops an ID from the free-list if non-empty, else takes
`nextId++`; constructs an Entity bound to that ID and inserts it; returns a
stable non-owning reference".  The fresh heap address models the new
allocation. -/
def createEntity (em : EntityManager) : Nat × EntityManager :=
  let r := em.nextRef
  match em.freeIds with
  | [] =>
      (r, { heap := fun j => if j = r then some ⟨em.nextId, ""⟩ else em.heap j,
            entities := mapInsert em.entities em.nextId r,
            freeIds := [],
            nextId := em.nextId + 1,
            nextRef := r + 1 })
  | i :: rest =>
      (r, { heap := fun j => if j = r then some ⟨i, ""⟩ else em.heap j,
            entities := mapInsert em.entities i r,
            freeIds := rest,
            nextId := em.nextId,
            nextRef := r + 1 })

/-- Modelled from the spec: `EntityManager::destroyEntity`'s body is not among
the sources.  Spec §4.1: "removes the Entity from the map, pushes its ID onto
the free-list, releases owned components and Transform.  No-op (or reports a
'not found' condition) if the reference is stale."  `std::queue` pushes at the
back. -/
def destroyEntity (em : EntityManager) (r : Nat) : EntityManager :=
  match em.heap r with
  | none => em
  | some obj =>
      match mapLookup em.entities obj.id with
      | none => em
      | some r2 =>
          if r2 = r then
            { heap := fun j => if j = r then none else em.heap j,
              entities := mapErase em.entities obj.id,
              freeIds := em.freeIds ++ [obj.id],
              nextId := em.nextId,
              nextRef := em.nextRef }
          else em

/-- Modelled from the spec: `EntityManager::getEntity`'s body is not among the
sources.  Spec §4.1: "O(1) lookup; returns null if the ID is not currently
live." -/
def getEntity (em : EntityManager) (id : Nat) : Option Nat :=
  mapLookup em.entities id

/-- `Entity::setName` (header): overwrite the name of the pointed-to entity. -/
def setEntityName (em : EntityManager) (r : Nat) (n : String) : EntityManager :=
  { em with heap := fun j => if j = r then (em.heap j).map fun o => { o with name := n }
                             else em.heap j }

/-- Well-formedness of an EntityManager state: live ids map to allocated heap
objects carrying that id, free ids are not live, ids are bounded by `nextId`,
heap addresses by `nextRef`, and the free queue has no duplicates. -/
structure WF (em : EntityManager) : Prop where
  live_ref_lt : ∀ id r, mapLookup em.entities id = some r → r < em.nextRef
  live_heap : ∀ id r, mapLookup em.entities id = some r →
      ∃ obj, em.heap r = some obj ∧ obj.id = id
  free_not_live : ∀ id, id ∈ em.freeIds → mapLookup em.entities id = none
  live_id_lt : ∀ id r, mapLookup em.entities id = some r → id < em.nextId
  free_id_lt : ∀ id, id ∈ em.freeIds → id < em.nextId
  heap_ref_lt : ∀ r obj, em.heap r = some obj → r < em.nextRef
  free_nodup : em.freeIds.Nodup

/-- The id `createEntity` will hand out: the front of the free queue when
non-empty, else `nextId`. -/
def createdId (em : EntityManager) : Nat :=
  match em.freeIds with
  | [] => em.nextId
  | i :: _ => i

theorem createEntity_eq_nil (em : EntityManager) (hf : em.freeIds = []) :
    createEntity em =
      (em.nextRef,
        { heap := fun j => if j = em.nextRef then some ⟨em.nextId, ""⟩ else em.heap j,
          entities := mapInsert em.entities em.nextId em.nextRef,
          freeIds := [],
          nextId := em.nextId + 1,
          nextRef := em.nextRef + 1 }) := by
  simp [createEntity, hf]

theorem createEntity_eq_cons (em : EntityManager) (i : Nat) (rest : List Nat)
    (hf : em.freeIds = i :: rest) :
    createEntity em =
      (em.nextRef,
        { heap := fun j => if j = em.nextRef then some ⟨i, ""⟩ else em.heap j,
          entities := mapInsert em.entities i em.nextRef,
          freeIds := rest,
          nextId := em.nextId,
          nextRef := em.nextRef + 1 }) := by
  simp [createEntity, hf]

theorem wf_create (em : EntityManager) (h : WF em) : WF (createEntity em).2 := by
  rcases hf : em.freeIds with _ | ⟨i, rest⟩
  · rw [createEntity_eq_nil em hf]
    constructor
    · intro id r hl
      dsimp at hl ⊢
      by_cases hid : id = em.nextId
      · subst hid
        rw [mapLookup_mapInsert_self] at hl
        cases hl
        exact Nat.lt_succ_self _
      · rw [mapLookup_mapInsert_ne _ _ _ _ hid] at hl
        exact Nat.lt_trans (h.live_ref_lt id r hl) (Nat.lt_succ_self _)
    · intro id r hl
      dsimp at hl ⊢
      by_cases hid : id = em.nextId
      · subst hid
        rw [mapLookup_mapInsert_self] at hl
        cases hl
        exact ⟨⟨em.nextId, ""⟩, by simp, rfl⟩
      · rw [mapLookup_mapInsert_ne _ _ _ _ hid] at hl
        obtain ⟨obj, hobj, hoid⟩ := h.live_heap id r hl
        have hrne : r ≠ em.nextRef := Nat.ne_of_lt (h.live_ref_lt id r hl)
        exact ⟨obj, by simp [hrne, hobj], hoid⟩
    · intro id hid
      simp at hid
    · intro id r hl
      dsimp at hl ⊢
      by_cases hid : id = em.nextId
      · subst hid; exact Nat.lt_succ_self _
      · rw [mapLookup_mapInsert_ne _ _ _ _ hid] at hl
        exact Nat.lt_trans (h.live_id_lt id r hl) (Nat.lt_succ_self _)
    · intro id hid
      simp at hid
    · intro r obj hh
      dsimp at hh ⊢
      by_cases hr : r = em.nextRef
      · subst hr; exact Nat.lt_succ_self _
      · rw [if_neg hr] at hh
        exact Nat.lt_trans (h.heap_ref_lt r obj hh) (Nat.lt_succ_self _)
    · exact List.nodup_nil
  · rw [createEntity_eq_cons em i rest hf]
    have hnodup : (i :: rest).Nodup := hf ▸ h.free_nodup
    have hmemi : i ∈ em.freeIds := by rw [hf]; exact List.mem_cons_self i rest
    constructor
    · intro id r hl
      dsimp at hl ⊢
      by_cases hid : id = i
      · subst hid
        rw [mapLookup_mapInsert_self] at hl
        cases hl
        exact Nat.lt_succ_self _
      · rw [mapLookup_mapInsert_ne _ _ _ _ hid] at hl
        exact Nat.lt_trans (h.live_ref_lt id r hl) (Nat.lt_succ_self _)
    · intro id r hl
      dsimp at hl ⊢
      by_cases hid : id = i
      · subst hid
        rw [mapLookup_mapInsert_self] at hl
        cases hl
        exact ⟨⟨id, ""⟩, by simp, rfl⟩
      · rw [mapLookup_mapInsert_ne _ _ _ _ hid] at hl
        obtain ⟨obj, hobj, hoid⟩ := h.live_heap id r hl
        have hrne : r ≠ em.nextRef := Nat.ne_of_lt (h.live_ref_lt id r hl)
        exact ⟨obj, by simp [hrne, hobj], hoid⟩
    · intro id hid
      dsimp at hid ⊢
      have hidfree : id ∈ em.freeIds := by
        rw [hf]; exact List.mem_cons_of_mem i hid
      have hne : id ≠ i := by
        intro hE
        subst hE
        exact (List.nodup_cons.mp hnodup).1 hid
      rw [mapLookup_mapInsert_ne _ _ _ _ hne]
      exact h.free_not_live id hidfree
    · intro id r hl
      dsimp at hl ⊢
      by_cases hid : id = i
      · subst hid
        exact h.free_id_lt id hmemi
      · rw [mapLookup_mapInsert_ne _ _ _ _ hid] at hl
        exact h.live_id_lt id r hl
    · intro id hid
      dsimp at hid ⊢
      exact h.free_id_lt id (by rw [hf]; exact List.mem_cons_of_mem i hid)
    · intro r obj hh
      dsimp at hh ⊢
      by_cases hr : r = em.nextRef
      · subst hr; exact Nat.lt_succ_self _
      · rw [if_neg hr] at hh
        exact Nat.lt_trans (h.heap_ref_lt r obj hh) (Nat.lt_succ_self _)
    · exact (List.nodup_cons.mp hnodup).2

theorem destroyEntity_eq (em : EntityManager) (r : Nat) (obj : EntityObj)
    (hh : em.heap r = some obj) (hl : mapLookup em.entities obj.id = some r) :
    destroyEntity em r =
      { heap := fun j => if j = r then none else em.heap j,
        entities := mapErase em.entities obj.id,
        freeIds := em.freeIds ++ [obj.id],
        nextId := em.nextId,
        nextRef := em.nextRef } := by
  simp [destroyEntity, hh, hl]

theorem destroyEntity_noheap (em : EntityManager) (r : Nat) (hh : em.heap r = none) :
    destroyEntity em r = em := by
  simp [destroyEntity, hh]

theorem destroyEntity_nolookup (em : EntityManager) (r : Nat) (obj : EntityObj)
    (hh : em.heap r = some obj) (hl : mapLookup em.entities obj.id = none) :
    destroyEntity em r = em := by
  simp [destroyEntity, hh, hl]

theorem destroyEntity_mismatch (em : EntityManager) (r : Nat) (obj : EntityObj) (r2 : Nat)
    (hh : em.heap r = some obj) (hl : mapLookup em.entities obj.id = some r2)
    (hr : r2 ≠ r) : destroyEntity em r = em := by
  simp [destroyEntity, hh, hl, hr]

theorem wf_destroy (em : EntityManager) (r : Nat) (h : WF em) : WF (destroyEntity em r) := by
  cases hh : em.heap r with
  | none => rw [destroyEntity_noheap em r hh]; exact h
  | some obj =>
      cases hl : mapLookup em.entities obj.id with
      | none => rw [destroyEntity_nolookup em r obj hh hl]; exact h
      | some r2 =>
          by_cases hr : r2 = r
          · subst hr
            rw [destroyEntity_eq em r2 obj hh hl]
            have hobjfree : obj.id ∉ em.freeIds := by
              intro hmem
              rw [h.free_not_live obj.id hmem] at hl
              cases hl
            constructor
            · intro id r3 hl3
              dsimp at hl3 ⊢
              by_cases hid : id = obj.id
              · subst hid; rw [mapLookup_mapErase_self] at hl3; cases hl3
              · rw [mapLookup_mapErase_ne _ _ _ hid] at hl3
                exact h.live_ref_lt id r3 hl3
            · intro id r3 hl3
              dsimp at hl3 ⊢
              by_cases hid : id = obj.id
              · subst hid; rw [mapLookup_mapErase_self] at hl3; cases hl3
              · rw [mapLookup_mapErase_ne _ _ _ hid] at hl3
                obtain ⟨obj3, hobj3, hoid3⟩ := h.live_heap id r3 hl3
                have hr3 : r3 ≠ r2 := by
                  intro hE
                  subst hE
                  rw [hh] at hobj3
                  cases hobj3
                  exact hid hoid3.symm
                exact ⟨obj3, by simp [hr3, hobj3], hoid3⟩
            · intro id hid
              dsimp at hid ⊢
              by_cases hido : id = obj.id
              · subst hido; exact mapLookup_mapErase_self _ _
              · rw [mapLookup_mapErase_ne _ _ _ hido]
                rcases List.mem_append.mp hid with hmem | hmem
                · exact h.free_not_live id hmem
                · cases List.mem_singleton.mp hmem
                  exact absurd rfl hido
            · intro id r3 hl3
              dsimp at hl3 ⊢
              by_cases hid : id = obj.id
              · subst hid; rw [mapLookup_mapErase_self] at hl3; cases hl3
              · rw [mapLookup_mapErase_ne _ _ _ hid] at hl3
                exact h.live_id_lt id r3 hl3
            · intro id hid
              dsimp at hid ⊢
              rcases List.mem_append.mp hid with hmem | hmem
              · exact h.free_id_lt id hmem
              · cases List.mem_singleton.mp hmem
                exact h.live_id_lt obj.id r2 hl
            · intro r3 obj3 hh3
              dsimp at hh3 ⊢
              by_cases hr3 : r3 = r2
              · rw [if_pos hr3] at hh3; cases hh3
              · rw [if_neg hr3] at hh3
                exact h.heap_ref_lt r3 obj3 hh3
            · exact List.Nodup.append h.free_nodup (List.nodup_singleton obj.id)
                (fun a ha hb => hobjfree (List.mem_singleton.mp hb ▸ ha))
          · rw [destroyEntity_mismatch em r obj r2 hh hl hr]
            exact h

/-- EntityManager operations performed between creation and destruction of an
entity (the public mutating surface of the manager). -/
inductive EMOp where
  | create : EMOp
  | destroy : Nat → EMOp
deriving DecidableEq

def applyOp (em : EntityManager) : EMOp → EntityManager
  | EMOp.create => (createEntity em).2
  | EMOp.destroy r => destroyEntity em r

def run (em : EntityManager) (ops : List EMOp) : EntityManager :=
  ops.foldl applyOp em

theorem wf_applyOp (em : EntityManager) (op : EMOp) (h : WF em) : WF (applyOp em op) := by
  cases op with
  | create => exact wf_create em h
  | destroy r => exact wf_destroy em r h

theorem lookup_preserved_create (em : EntityManager) (h : WF em) (id r : Nat)
    (hl : mapLookup em.entities id = some r) :
    mapLookup (createEntity em).2.entities id = some r := by
  rcases hf : em.freeIds with _ | ⟨i, rest⟩
  · rw [createEntity_eq_nil em hf]
    dsimp
    have hid : id ≠ em.nextId := Nat.ne_of_lt (h.live_id_lt id r hl)
    rw [mapLookup_mapInsert_ne _ _ _ _ hid]
    exact hl
  · rw [createEntity_eq_cons em i rest hf]
    dsimp
    have hid : id ≠ i := by
      intro hE
      subst hE
      rw [h.free_not_live id (by rw [hf]; exact List.mem_cons_self id rest)] at hl
      cases hl
    rw [mapLookup_mapInsert_ne _ _ _ _ hid]
    exact hl

theorem lookup_preserved_destroy (em : EntityManager) (h : WF em) (id r r' : Nat)
    (hl : mapLookup em.entities id = some r) (hne : r' ≠ r) :
    mapLookup (destroyEntity em r').entities id = some r := by
  cases hh : em.heap r' with
  | none => rw [destroyEntity_noheap em r' hh]; exact hl
  | some obj =>
      cases hlo : mapLookup em.entities obj.id with
      | none => rw [destroyEntity_nolookup em r' obj hh hlo]; exact hl
      | some r2 =>
          by_cases hr : r2 = r'
          · subst hr
            rw [destroyEntity_eq em r2 obj hh hlo]
            dsimp
            have hid : id ≠ obj.id := by
              intro hE
              subst hE
              rw [hl] at hlo
              cases hlo
              exact hne rfl
            rw [mapLookup_mapErase_ne _ _ _ hid]
            exact hl
          · rw [destroyEntity_mismatch em r' obj r2 hh hlo hr]
            exact hl

theorem live_until_destroyed (ops : List EMOp) :
    ∀ em : EntityManager, WF em → ∀ id r : Nat, mapLookup em.entities id = some r →
      (∀ op ∈ ops, op ≠ EMOp.destroy r) →
      mapLookup (run em ops).entities id = some r := by
  induction ops with
  | nil => intro em _ id r hl _; exact hl
  | cons op rest ih =>
      intro em hwf id r hl hops
      have hstep : mapLookup (applyOp em op).entities id = some r := by
        cases op with
        | create => exact lookup_preserved_create em hwf id r hl
        | destroy r' =>
            have hne : r' ≠ r := by
              intro hE
              exact hops (EMOp.destroy r') (List.mem_cons_self _ _) (by rw [hE])
            exact lookup_preserved_destroy em hwf id r r' hl hne
      exact ih (applyOp em op) (wf_applyOp em op hwf) id r hstep
        (fun o ho => hops o (List.mem_cons_of_mem op ho))

theorem createEntity_fst (em : EntityManager) : (createEntity em).1 = em.nextRef := by
  rcases hf : em.freeIds with _ | ⟨i, rest⟩
  · rw [createEntity_eq_nil em hf]
  · rw [createEntity_eq_cons em i rest hf]

theorem createEntity_lookup (em : EntityManager) :
    getEntity (createEntity em).2 (createdId em) = some (createEntity em).1 := by
  rcases hf : em.freeIds with _ | ⟨i, rest⟩
  · rw [createEntity_eq_nil em hf]
    unfold getEntity createdId
    rw [hf]
    exact mapLookup_mapInsert_self _ _ _
  · rw [createEntity_eq_cons em i rest hf]
    unfold getEntity createdId
    rw [hf]
    exact mapLookup_mapInsert_self _ _ _

theorem destroyEntity_nextRef (em : EntityManager) (r : Nat) :
    (destroyEntity em r).nextRef = em.nextRef := by
  cases hh : em.heap r with
  | none => rw [destroyEntity_noheap em r hh]
  | some obj =>
      cases hl : mapLookup em.entities obj.id with
      | none => rw [destroyEntity_nolookup em r obj hh hl]
      | some r2 =>
          by_cases hr : r2 = r
          · subst hr; rw [destroyEntity_eq em r2 obj hh hl]
          · rw [destroyEntity_mismatch em r obj r2 hh hl hr]

theorem destroy_lookup_none (em : EntityManager) (hwf : WF em) (id r : Nat)
    (hl : mapLookup em.entities id = some r) :
    getEntity (destroyEntity em r) id = none := by
  obtain ⟨obj, hh, hoid⟩ := hwf.live_heap id r hl
  have hlo : mapLookup em.entities obj.id = some r := by rw [hoid]; exact hl
  rw [getEntity, destroyEntity_eq em r obj hh hlo]
  dsimp
  rw [← hoid]
  exact mapLookup_mapErase_self _ _

/-! ## Claim C3 -/

/-- C3: a live entity binding `id ↦ e` persists across any sequence of manager
operations that never destroys `e` — `getEntity id` keeps returning exactly
`e`; a freshly created entity is immediately found under its id;
after `destroyEntity e`, `getEntity` on the old id returns null; and when the
id is recycled, the next created entity is a different reference (never
conflated with the old one) and is the one `getEntity` then returns. -/
theorem entity_id_lifecycle (em : EntityManager) (hwf : WF em) (id r : Nat)
    (hl : mapLookup em.entities id = some r) :
    getEntity (createEntity em).2 (createdId em) = some (createEntity em).1 ∧
    (∀ ops : List EMOp, (∀ op ∈ ops, op ≠ EMOp.destroy r) →
        getEntity (run em ops) id = some r) ∧
    getEntity (destroyEntity em r) id = none ∧
    (createEntity (destroyEntity em r)).1 ≠ r ∧
    getEntity (createEntity (destroyEntity em r)).2 (createdId (destroyEntity em r)) =
      some (createEntity (destroyEntity em r)).1 := by
  refine ⟨createEntity_lookup em, ?_, destroy_lookup_none em hwf id r hl, ?_,
    createEntity_lookup (destroyEntity em r)⟩
  · intro ops hops
    exact live_until_destroyed ops em hwf id r hl hops
  · rw [createEntity_fst, destroyEntity_nextRef]
    exact (Nat.ne_of_lt (hwf.live_ref_lt id r hl)).symm

/-- The empty EntityManager (the state right after construction). -/
def emptyEM : EntityManager := ⟨fun _ => none, [], [], 0, 0⟩

theorem wf_emptyEM : WF emptyEM := by
  constructor <;> first
    | exact List.nodup_nil
    | (intro id; simp [emptyEM, mapLookup])

/-- The manager holding one entity (id 0, heap address 0). -/
def emOne : EntityManager := (createEntity emptyEM).2

/-- C3 witness: the lifecycle facts at the one-entity manager. -/
theorem entity_id_lifecycle_witness :
    getEntity (createEntity emOne).2 (createdId emOne) = some (createEntity emOne).1 ∧
    (∀ ops : List EMOp, (∀ op ∈ ops, op ≠ EMOp.destroy 0) →
        getEntity (run emOne ops) 0 = some 0) ∧
    getEntity (destroyEntity emOne 0) 0 = none ∧
    (createEntity (destroyEntity emOne 0)).1 ≠ 0 ∧
    getEntity (createEntity (destroyEntity emOne 0)).2 (createdId (destroyEntity emOne 0)) =
      some (createEntity (destroyEntity emOne 0)).1 :=
  entity_id_lifecycle emOne (wf_create emptyEM wf_emptyEM) 0 0 rfl

/-! ## Scene (src/src/Engine/Scene/Scene.cpp)

A Scene owns an EntityManager and the `name → Entity*` map `entityNames`.
(The per-type system map does not enter the claims.)
-/

structure Scene where
  em : EntityManager
  entityNames : List (String × Nat)

/-- `Scene::createEntity()`: delegate to the entity manager. -/
def Scene.createEntity (s : Scene) : Nat × Scene :=
  let r := Sillyengine.createEntity s.em
  (r.1, { em := r.2, entityNames := s.entityNames })

/-- `Scene::createEntity(name)`: create, `entity->setName(name)`, then
`entityNames[name] = entity` (last writer wins). -/
def Scene.createEntityNamed (s : Scene) (name : String) : Nat × Scene :=
  let r := Sillyengine.createEntity s.em
  (r.1, { em := setEntityName r.2 r.1 name,
          entityNames := mapInsert s.entityNames name r.1 })

/-- `Scene::destroyEntity(Entity*)`: null is a no-op; otherwise erase the
name-map entry found under the entity's *current* name when it points at this
entity, then delegate to `EntityManager::destroyEntity`.  (Dereferencing a
dangling pointer is undefined in the source; the model makes it a no-op.) -/
def Scene.destroyEntity (s : Scene) (e : Option Nat) : Scene :=
  match e with
  | none => s
  | some r =>
      match s.em.heap r with
      | none => s
      | some obj =>
          match mapLookup s.entityNames obj.name with
          | some r2 =>
              if r2 = r then
                { em := Sillyengine.destroyEntity s.em r, entityNames := mapErase s.entityNames obj.name }
              else
                { em := Sillyengine.destroyEntity s.em r, entityNames := s.entityNames }
          | none => { em := Sillyengine.destroyEntity s.em r, entityNames := s.entityNames }

/-- `Scene::getEntityByName`. -/
def Scene.getEntityByName (s : Scene) (name : String) : Option Nat :=
  mapLookup s.entityNames name

/-! ## Claim C6 -/

/-- Fresh scene over an empty entity manager. -/
def c6Scene0 : Scene := ⟨⟨fun _ => none, [], [], 0, 0⟩, []⟩

/-- The scene after `createEntity("a")`. -/
def c6Scene1 : Scene := (Scene.createEntityNamed c6Scene0 "a").2

/-- The scene after additionally renaming that entity to "b" via
`Entity::setName` (which does not touch the scene's name map). -/
def c6Scene2 : Scene := { c6Scene1 with em := setEntityName c6Scene1.em 0 "b" }

/-- C6 counterexample: create an entity named "a", rename it to "b", then
`Scene::destroyEntity` it.  The erase is keyed by the *current* name "b", so
the stale entry "a" survives: the entity is destroyed in the manager, yet
`getEntityByName("a")` still returns its pointer — the claim's "removes every
entry pointing at e, regardless of renames" is false. -/
theorem scene_destroyEntity_rename_counterexample :
    getEntity (Scene.destroyEntity c6Scene2 (some 0)).em 0 = none ∧
    Scene.getEntityByName (Scene.destroyEntity c6Scene2 (some 0)) "a" =
      some (Scene.createEntityNamed c6Scene0 "a").1 := by
  exact ⟨rfl, rfl⟩

/-- C6 (amended): `Scene::destroyEntity(e)` erases the name-map entry under
`e`'s current name when that entry points at `e` (so a lookup of the current
name no longer yields `e`), and then delegates to the entity manager's
`destroyEntity`; entries recorded under former names of `e` are not removed. -/
theorem scene_destroyEntity_current_name (s : Scene) (r : Nat) (obj : EntityObj)
    (hh : s.em.heap r = some obj) :
    (Scene.destroyEntity s (some r)).em = destroyEntity s.em r ∧
    (mapLookup s.entityNames obj.name = some r →
        (Scene.destroyEntity s (some r)).entityNames = mapErase s.entityNames obj.name ∧
        Scene.getEntityByName (Scene.destroyEntity s (some r)) obj.name = none) ∧
    (mapLookup s.entityNames obj.name ≠ some r →
        (Scene.destroyEntity s (some r)).entityNames = s.entityNames) ∧
    Scene.getEntityByName (Scene.destroyEntity s (some r)) obj.name ≠ some r := by
  cases hn : mapLookup s.entityNames obj.name with
  | none =>
      refine ⟨?_, ?_, ?_, ?_⟩ <;>
        simp [Scene.destroyEntity, Scene.getEntityByName, hh, hn]
  | some r2 =>
      by_cases hr : r2 = r
      · subst hr
        refine ⟨?_, ?_, ?_, ?_⟩ <;>
          simp [Scene.destroyEntity, Scene.getEntityByName, hh, hn,
            mapLookup_mapErase_self]
      · refine ⟨?_, ?_, ?_, ?_⟩ <;>
          simp [Scene.destroyEntity, Scene.getEntityByName, hh, hn, hr]

/-- C6 witness: destroying an entity still carrying its registered name does
erase its name-map entry. -/
theorem scene_destroyEntity_current_name_witness :
    (Scene.destroyEntity c6Scene1 (some 0)).em = destroyEntity c6Scene1.em 0 ∧
    (Scene.destroyEntity c6Scene1 (some 0)).entityNames = mapErase c6Scene1.entityNames "a" ∧
    Scene.getEntityByName (Scene.destroyEntity c6Scene1 (some 0)) "a" = none :=
  have h := scene_destroyEntity_current_name c6Scene1 0 ⟨0, "a"⟩ rfl
  ⟨h.1, (h.2.1 rfl).1, (h.2.1 rfl).2⟩

/-! ## Claim C10 -/

/-- C10: `Scene::destroyEntity(nullptr)` returns immediately: the scene — its
name map and entity manager included — is completely unchanged. -/
theorem scene_destroyEntity_null_noop (s : Scene) : Scene.destroyEntity s none = s := rfl

/-! ## SceneManager (src/src/Engine/Scene/SceneManager.cpp)

The manager owns `name → Scene*` (`scenes`) and the raw active pointer.
`update`/`render` only forward to the active scene; their observable effect is
embedded as the list of `Scene::update` / `Scene::render` calls issued. -/

structure SceneManager where
  scenes : List (String × Nat)
  activeScene : Option Nat
  nextRef : Nat

/-- `SceneManager::createScene`: return the existing scene under that name
(warning logged) or allocate, insert and return a new one. -/
def SceneManager.createScene (sm : SceneManager) (name : String) : Nat × SceneManager :=
  match mapLookup sm.scenes name with
  | some p => (p, sm)
  | none =>
      (sm.nextRef,
        { scenes := mapInsert sm.scenes name sm.nextRef,
          activeScene := sm.activeScene,
          nextRef := sm.nextRef + 1 })

/-- `SceneManager::destroyScene`: false when the name is unknown; otherwise
clear the active pointer if it points at this scene, then erase it. -/
def SceneManager.destroyScene (sm : SceneManager) (name : String) : Bool × SceneManager :=
  match mapLookup sm.scenes name with
  | none => (false, sm)
  | some p =>
      (true,
        { scenes := mapErase sm.scenes name,
          activeScene := if sm.activeScene = some p then none else sm.activeScene,
          nextRef := sm.nextRef })

/-- `SceneManager::setActiveScene`: reject null; accept only a pointer that is
an entry of the owned scene map (the loop over `scenes`), else no change. -/
def SceneManager.setActiveScene (sm : SceneManager) (scene : Option Nat) : SceneManager :=
  match scene with
  | none => sm
  | some p =>
      if sm.scenes.any (fun q => decide (q.2 = p)) then
        { sm with activeScene := some p }
      else sm

/-- `SceneManager::update(dt)`: the `Scene::update` calls issued (empty when
no scene is active). -/
def SceneManager.update (sm : SceneManager) (dt : ℚ) : List (Nat × ℚ) :=
  match sm.activeScene with
  | some p => [(p, dt)]
  | none => []

/-- `SceneManager::render()`: the `Scene::render` calls issued. -/
def SceneManager.render (sm : SceneManager) : List Nat :=
  match sm.activeScene with
  | some p => [p]
  | none => []

/-! ## Claim C7 -/

/-- C7: destroying the active scene clears the active pointer, after which
`update` and `render` issue no calls to any scene; moreover any manager state
with a null active pointer keeps updates and renders as no-ops, and
`createScene`/`destroyScene` never activate a scene, so this persists until
`setActiveScene` succeeds. -/
theorem destroyScene_active_clears (sm : SceneManager) (name : String) (p : Nat)
    (hl : mapLookup sm.scenes name = some p) (ha : sm.activeScene = some p) :
    (SceneManager.destroyScene sm name).1 = true ∧
    (SceneManager.destroyScene sm name).2.activeScene = none ∧
    (∀ dt, SceneManager.update (SceneManager.destroyScene sm name).2 dt = []) ∧
    SceneManager.render (SceneManager.destroyScene sm name).2 = [] ∧
    (∀ sm0 : SceneManager, sm0.activeScene = none →
        (∀ dt, SceneManager.update sm0 dt = []) ∧
        SceneManager.render sm0 = [] ∧
        (∀ n, (SceneManager.createScene sm0 n).2.activeScene = none) ∧
        (∀ n, (SceneManager.destroyScene sm0 n).2.activeScene = none)) := by
  have hgeneral : ∀ sm0 : SceneManager, sm0.activeScene = none →
      (∀ dt, SceneManager.update sm0 dt = []) ∧
      SceneManager.render sm0 = [] ∧
      (∀ n, (SceneManager.createScene sm0 n).2.activeScene = none) ∧
      (∀ n, (SceneManager.destroyScene sm0 n).2.activeScene = none) := by
    intro sm0 h0
    refine ⟨fun dt => ?_, ?_, fun n => ?_, fun n => ?_⟩
    · simp [SceneManager.update, h0]
    · simp [SceneManager.render, h0]
    · cases hn : mapLookup sm0.scenes n with
      | none => simp [SceneManager.createScene, hn, h0]
      | some q => simp [SceneManager.createScene, hn, h0]
    · cases hn : mapLookup sm0.scenes n with
      | none => simp [SceneManager.destroyScene, hn, h0]
      | some q =>
          by_cases hq : q = p
          · simp [SceneManager.destroyScene, hn, h0]
          · simp [SceneManager.destroyScene, hn, h0]
  have hdes : (SceneManager.destroyScene sm name).2.activeScene = none := by
    simp [SceneManager.destroyScene, hl, ha]
  refine ⟨by simp [SceneManager.destroyScene, hl], hdes, ?_, ?_, hgeneral⟩
  · exact (hgeneral _ hdes).1
  · exact (hgeneral _ hdes).2.1

/-- C7 witness: a manager whose single scene "a" is active. -/
theorem destroyScene_active_clears_witness :
    (SceneManager.destroyScene ⟨[("a", 0)], some 0, 1⟩ "a").1 = true ∧
    (SceneManager.destroyScene ⟨[("a", 0)], some 0, 1⟩ "a").2.activeScene = none ∧
    (∀ dt, SceneManager.update (SceneManager.destroyScene ⟨[("a", 0)], some 0, 1⟩ "a").2 dt
        = []) ∧
    SceneManager.render (SceneManager.destroyScene ⟨[("a", 0)], some 0, 1⟩ "a").2 = [] ∧
    (∀ sm0 : SceneManager, sm0.activeScene = none →
        (∀ dt, SceneManager.update sm0 dt = []) ∧
        SceneManager.render sm0 = [] ∧
        (∀ n, (SceneManager.createScene sm0 n).2.activeScene = none) ∧
        (∀ n, (SceneManager.destroyScene sm0 n).2.activeScene = none)) :=
  destroyScene_active_clears ⟨[("a", 0)], some 0, 1⟩ "a" 0 rfl rfl

/-! ## Claim C8 -/

/-- C8: `setActiveScene` with null, or with a scene pointer that is not an
entry of this manager's scene map, is rejected and changes nothing: the
manager state (active pointer and scene map alike) is returned unchanged. -/
theorem setActiveScene_rejects (sm : SceneManager) (p : Nat)
    (hnot : sm.scenes.any (fun q => decide (q.2 = p)) = false) :
    SceneManager.setActiveScene sm none = sm ∧
    SceneManager.setActiveScene sm (some p) = sm := by
  refine ⟨rfl, ?_⟩
  simp [SceneManager.setActiveScene, hnot]

/-- C8 witness: rejecting a pointer not owned by the manager. -/
theorem setActiveScene_rejects_witness :
    SceneManager.setActiveScene ⟨[("a", 0)], none, 1⟩ none = ⟨[("a", 0)], none, 1⟩ ∧
    SceneManager.setActiveScene ⟨[("a", 0)], none, 1⟩ (some 5) = ⟨[("a", 0)], none, 1⟩ :=
  setActiveScene_rejects ⟨[("a", 0)], none, 1⟩ 5 rfl

/-! ## Claim C9 -/

/-- C9: calling `createScene` twice with the same name returns the same Scene
pointer both times and the second call leaves the manager (scene map
included) unchanged. -/
theorem createScene_idempotent (sm : SceneManager) (name : String) :
    (SceneManager.createScene (SceneManager.createScene sm name).2 name).1 =
      (SceneManager.createScene sm name).1 ∧
    (SceneManager.createScene (SceneManager.createScene sm name).2 name).2 =
      (SceneManager.createScene sm name).2 := by
  cases hl : mapLookup sm.scenes name with
  | some p =>
      constructor <;> simp [SceneManager.createScene, hl]
  | none =>
      have h2 : mapLookup (mapInsert sm.scenes name sm.nextRef) name = some sm.nextRef :=
        mapLookup_mapInsert_self _ _ _
      constructor <;> simp [SceneManager.createScene, hl, h2]

end Sillyengine
